import Mathlib

/-!
Verification of the F1 rating engine (driver Elo and constructor Glicko-2).

The definitions below are a shallow embedding of
`src/elo_calculation/calculate_driver_elo.py` and
`src/elo_calculation/calculate_team_elo.py`: Python floats are modelled as
real numbers, Python `None`/NaN-able cells as `Option`, the mutable
per-driver dictionaries as explicit state records, and the bounded numeric
loops of the Glicko-2 volatility solve as fuel-indexed recursion with the
source's iteration caps.
-/

namespace F1

/-! ### Driver Elo engine (`calculate_driver_elo.py`) -/

/-- Per-driver mutable state of `TeammateBasedF1Elo.driver_ratings`. -/
structure DriverState where
  qualifying_elo : ℝ
  race_elo : ℝ
  qualifying_races : ℕ
  race_races : ℕ
  ever_elite_qualifying : Bool
  ever_elite_race : Bool

/-- The lazily created default entry of `driver_ratings`. -/
noncomputable def initialDriverState : DriverState :=
  { qualifying_elo := 1500, race_elo := 1500, qualifying_races := 0, race_races := 0,
    ever_elite_qualifying := false, ever_elite_race := false }

/-- `MECHANICAL_FAILURES` status keyword set. -/
def MECHANICAL_FAILURES : List String :=
  [r"Engine", r"Gearbox", r"Transmission", r"Clutch", r"Hydraulics",
   r"Electrical", r"Electronics", r"Fuel System", r"Fuel Pump",
   r"Fuel Pressure", r"Oil Pressure", r"Oil Leak", r"Radiator",
   r"Cooling System", r"Water Leak", r"Overheating", r"Suspension",
   r"Brakes", r"Wheel", r"Wheel Bearing", r"Puncture", r"Driveshaft",
   r"CV Joint", r"Differential", r"Halfshaft", r"Battery", r"Alternator",
   r"Turbo", r"Throttle", r"Fuel Leak", r"Fire", r"Power Unit",
   r"ERS", r"MGU-K", r"MGU-H", r"Pneumatics", r"Exhaust"]

/-- `DRIVER_ERRORS` status keyword set. -/
def DRIVER_ERRORS : List String :=
  [r"Accident", r"Collision", r"Spun off", r"Damage", r"Collision damage",
   r"Fatal accident", r"Injury", r"Driver Seat", r"Seat"]

/-- Python `str.upper()` restricted to ASCII, as used on the status strings. -/
def pyUpper (s : String) : String := String.mk (s.data.map Char.toUpper)

/-- Python's substring test `needle in hay`. -/
def containsSub (needle hay : String) : Bool :=
  (List.range (hay.data.length + 1)).any fun i =>
    decide ((hay.data.drop i).take needle.data.length = needle.data)

/-- `TeammateBasedF1Elo.is_mechanical_dnf`: a missing or empty status is not
mechanical; otherwise any mechanical keyword occurring (case-insensitively)
in the status makes it mechanical. -/
def is_mechanical_dnf (status : Option String) : Bool :=
  match status with
  | none => false
  | some s =>
    if s = r"" then false
    else MECHANICAL_FAILURES.any fun failure => containsSub (pyUpper failure) (pyUpper s)

/-- `TeammateBasedF1Elo.is_driver_error_dnf`. -/
def is_driver_error_dnf (status : Option String) : Bool :=
  match status with
  | none => false
  | some s =>
    if s = r"" then false
    else DRIVER_ERRORS.any fun err => containsSub (pyUpper err) (pyUpper s)

/-- `TeammateBasedF1Elo.is_finished`: status equals `Finished` after strip,
or starts with `+` (lapped finishers). -/
def is_finished (status : Option String) : Bool :=
  match status with
  | none => false
  | some s => decide (s.trim = r"Finished") || s.startsWith (r"+")

/-- `TeammateBasedF1Elo.get_k_factor`: elite drivers get K=10, rookies
(fewer than 30 races) K=40, everyone else K=20.  The `current_elo`
argument is accepted but never inspected, exactly as in the source. -/
def get_k_factor (current_elo : ℝ) (races_completed : ℕ) (ever_elite : Bool) : ℝ :=
  if ever_elite then 10
  else if races_completed < 30 then 40
  else 20

/-- `TeammateBasedF1Elo.expected_score`: `1 / (1 + 10^((R_B - R_A)/400))`. -/
noncomputable def expected_score (rating_a rating_b : ℝ) : ℝ :=
  1 / (1 + (10 : ℝ) ^ ((rating_b - rating_a) / 400))

/-- `TeammateBasedF1Elo.update_rating`. -/
noncomputable def update_rating (rating k_factor actual_score exp_score : ℝ) : ℝ :=
  rating + k_factor * (actual_score - exp_score)

/-- Lines 170-206 of `process_qualifying_matchup`: the winner/loser update
block for the qualifying session.  Returns `(new winner, new loser)`. -/
noncomputable def quali_apply (winner loser : DriverState) : DriverState × DriverState :=
  let winner_elo := winner.qualifying_elo
  let loser_elo := loser.qualifying_elo
  let winner_expected := expected_score winner_elo loser_elo
  let loser_expected := 1 - winner_expected
  let winner_k := get_k_factor winner_elo winner.qualifying_races winner.ever_elite_qualifying
  let loser_k := get_k_factor loser_elo loser.qualifying_races loser.ever_elite_qualifying
  let new_winner_elo := update_rating winner_elo winner_k 1 winner_expected
  let new_loser_elo := update_rating loser_elo loser_k 0 loser_expected
  ({ winner with
      qualifying_elo := new_winner_elo,
      qualifying_races := winner.qualifying_races + 1,
      ever_elite_qualifying :=
        if 1750 ≤ new_winner_elo then true else winner.ever_elite_qualifying },
   { loser with
      qualifying_elo := new_loser_elo,
      qualifying_races := loser.qualifying_races + 1,
      ever_elite_qualifying :=
        if 1750 ≤ new_loser_elo then true else loser.ever_elite_qualifying })

/-- Lines 247-283 of `process_race_matchup`: the winner/loser update block
for the race session. -/
noncomputable def race_apply (winner loser : DriverState) : DriverState × DriverState :=
  let winner_elo := winner.race_elo
  let loser_elo := loser.race_elo
  let winner_expected := expected_score winner_elo loser_elo
  let loser_expected := 1 - winner_expected
  let winner_k := get_k_factor winner_elo winner.race_races winner.ever_elite_race
  let loser_k := get_k_factor loser_elo loser.race_races loser.ever_elite_race
  let new_winner_elo := update_rating winner_elo winner_k 1 winner_expected
  let new_loser_elo := update_rating loser_elo loser_k 0 loser_expected
  ({ winner with
      race_elo := new_winner_elo,
      race_races := winner.race_races + 1,
      ever_elite_race := if 1750 ≤ new_winner_elo then true else winner.ever_elite_race },
   { loser with
      race_elo := new_loser_elo,
      race_races := loser.race_races + 1,
      ever_elite_race := if 1750 ≤ new_loser_elo then true else loser.ever_elite_race })

/-- `TeammateBasedF1Elo.process_qualifying_matchup` as a pure transition:
returns the processed flag together with the new states of driver 1 and
driver 2 (in that order). -/
noncomputable def process_qualifying_matchup (d1 d2 : DriverState) (driver1_pos driver2_pos : ℝ)
    (driver1_status driver2_status : Option String) : Bool × DriverState × DriverState :=
  if is_mechanical_dnf driver1_status || is_mechanical_dnf driver2_status then (false, d1, d2)
  else if driver1_pos < driver2_pos then
    let r := quali_apply d1 d2
    (true, r.1, r.2)
  else
    let r := quali_apply d2 d1
    (true, r.2, r.1)

/-- `TeammateBasedF1Elo.process_race_matchup` as a pure transition. -/
noncomputable def process_race_matchup (d1 d2 : DriverState) (driver1_pos driver2_pos : ℝ)
    (driver1_status driver2_status : Option String) : Bool × DriverState × DriverState :=
  let d1_mechanical := is_mechanical_dnf driver1_status
  let d2_mechanical := is_mechanical_dnf driver2_status
  if d1_mechanical || d2_mechanical then (false, d1, d2)
  else
    let d1_error := is_driver_error_dnf driver1_status
    let d2_error := is_driver_error_dnf driver2_status
    let d1_finished := is_finished driver1_status
    let d2_finished := is_finished driver2_status
    if d1_error && d2_error then (false, d1, d2)
    else if d1_error && (d2_finished || !d2_error) then
      let r := race_apply d2 d1
      (true, r.2, r.1)
    else if d2_error && (d1_finished || !d1_error) then
      let r := race_apply d1 d2
      (true, r.1, r.2)
    else if driver1_pos < driver2_pos then
      let r := race_apply d1 d2
      (true, r.1, r.2)
    else
      let r := race_apply d2 d1
      (true, r.2, r.1)

/-- Mean qualifying Elo over the whole tracked pool, as computed by
`normalize_ratings` (`np.mean` = sum / length). -/
noncomputable def mean_qualifying (l : List DriverState) : ℝ :=
  (l.map fun d => d.qualifying_elo).sum / l.length

/-- Mean race Elo over the whole tracked pool. -/
noncomputable def mean_race (l : List DriverState) : ℝ :=
  (l.map fun d => d.race_elo).sum / l.length

/-- `TeammateBasedF1Elo.normalize_ratings`: no-op on an empty pool,
otherwise shifts every tracked driver's qualifying and race Elo by
`INITIAL_RATING - mean` for the respective session type. -/
noncomputable def normalize_ratings (l : List DriverState) : List DriverState :=
  if l.isEmpty then l
  else
    let mean_q := mean_qualifying l
    let mean_r := mean_race l
    l.map fun d =>
      { d with
          qualifying_elo := d.qualifying_elo - mean_q + 1500,
          race_elo := d.race_elo - mean_r + 1500 }

/-! ### Constructor lineage resolution (`calculate_team_elo.py`) -/

/-- Python `str.lower()` restricted to ASCII. -/
def pyLower (s : String) : String := String.mk (s.data.map Char.toLower)

/-- Python `str.replace(a, b)` for single-character patterns. -/
def replace_char (s : String) (a b : Char) : String :=
  String.mk (s.data.map fun c => if c = a then b else c)

/-- `ConstructorLineage.LINEAGE_MAP` (fixed at class definition). -/
def LINEAGE_MAP : List (String × String) :=
  [(r"jordan", r"jordan_lineage"), (r"midland", r"jordan_lineage"),
   (r"spyker", r"jordan_lineage"), (r"force_india", r"jordan_lineage"),
   (r"racing_point", r"jordan_lineage"), (r"aston_martin", r"jordan_lineage"),
   (r"stewart", r"redbull_lineage"), (r"jaguar", r"redbull_lineage"),
   (r"red_bull", r"redbull_lineage"),
   (r"sauber", r"sauber_lineage"), (r"bmw_sauber", r"sauber_lineage"),
   (r"alfa", r"sauber_lineage"),
   (r"toro_rosso", r"toro_rosso_lineage"), (r"alphatauri", r"toro_rosso_lineage"),
   (r"rb", r"toro_rosso_lineage"),
   (r"benetton", r"renault_lineage"), (r"renault", r"renault_lineage"),
   (r"lotus_f1", r"renault_lineage"), (r"alpine", r"renault_lineage"),
   (r"tyrrell", r"mercedes_lineage"), (r"bar", r"mercedes_lineage"),
   (r"honda", r"mercedes_lineage"), (r"brawn", r"mercedes_lineage"),
   (r"mercedes", r"mercedes_lineage")]

/-- The key normalization of `ConstructorLineage.get_lineage`:
`constructor_ref.lower().replace(' ', '_').replace('-', '_')`. -/
def normalize_ref (s : String) : String :=
  replace_char (replace_char (pyLower s) ' ' '_') '-' '_'

/-- `ConstructorLineage.get_lineage`: look up the normalized identifier in
the fixed map; unknown identifiers fall back to the original string. -/
def get_lineage (constructor_ref : String) : String :=
  (LINEAGE_MAP.lookup (normalize_ref constructor_ref)).getD constructor_ref

/-! ### Driver-adjusted team performance (`calculate_team_elo.py`) -/

/-- One row of `results_df` restricted to a race and constructor, as read
by `get_driver_adjusted_performance`: whether the driver has an entry in
`driver_elos`, the driver's rating for the session, and the (nullable)
position or grid value. -/
structure TeamDriverResult where
  has_elo : Bool
  elo : ℝ
  position : Option ℝ

/-- The `adjusted_performances` list accumulated inside
`get_driver_adjusted_performance`: drivers without an Elo entry are
skipped, rows with a null or non-positive position are skipped, and each
usable row contributes `max(0, 100 - (pos - 1) * 5) - (elo - 1500) / 10`. -/
noncomputable def adjusted_performances (rs : List TeamDriverResult) : List ℝ :=
  rs.filterMap fun res =>
    if res.has_elo then
      match res.position with
      | some pos =>
        if 0 < pos then
          some (max 0 (100 - (pos - 1) * 5) - (res.elo - 1500) / 10)
        else none
      | none => none
    else none

/-- `TeamEloCalculator.get_driver_adjusted_performance`: `(None, 0)` for an
empty result set or an empty adjusted list, otherwise the **average** of
the adjusted performances together with the sample count. -/
noncomputable def get_driver_adjusted_performance (rs : List TeamDriverResult) :
    Option ℝ × ℕ :=
  if rs.isEmpty then (none, 0)
  else
    let perfs := adjusted_performances rs
    if perfs.isEmpty then (none, 0)
    else (some (perfs.sum / perfs.length), perfs.length)

/-- The body of the `lineage_performance` accumulation loop of
`process_race_matchups` (and identically `process_qualifying_matchups`)
for a single lineage: keep the larger of the stored value and the new
constructor's adjusted performance. -/
noncomputable def lineage_step (acc : Option ℝ) (rs : List TeamDriverResult) : Option ℝ :=
  match (get_driver_adjusted_performance rs).1 with
  | some perf =>
    if 0 < (get_driver_adjusted_performance rs).2 then
      match acc with
      | none => some perf
      | some q => if q < perf then some perf else some q
    else acc
  | none => acc

/-- The performance value a lineage enters matchup generation with: the
fold of `lineage_step` over the result sets of all constructors mapping to
that lineage in the event. -/
noncomputable def lineage_performance (cs : List (List TeamDriverResult)) : Option ℝ :=
  cs.foldl lineage_step none

/-- Definition following the spec's words for claim C2: the lineage's
performance would be the maximum adjusted value among all of the lineage's
drivers with a usable sample in the event. -/
noncomputable def spec_lineage_driver_max (cs : List (List TeamDriverResult)) : Option ℝ :=
  (cs.map adjusted_performances).flatten.max?

/-! ### Glicko-2 rating update (`calculate_team_elo.py`) -/

/-- `Glicko2Rating`: rating, rating deviation and volatility. -/
structure Glicko2Rating where
  rating : ℝ
  rd : ℝ
  volatility : ℝ

/-- The constructor defaults: `rating=1500, rd=350, volatility=0.06`. -/
noncomputable def initialGlicko2 : Glicko2Rating :=
  { rating := 1500, rd := 350, volatility := 0.06 }

/-- The system constant `tau = 0.5`. -/
noncomputable def tau : ℝ := 0.5

/-- Scalar `np.clip(x, lo, hi)`. -/
noncomputable def clip (x lo hi : ℝ) : ℝ := min hi (max lo x)

/-- `TeamEloCalculator.g_function`. -/
noncomputable def g_function (phi : ℝ) : ℝ :=
  1 / Real.sqrt (1 + 3 * phi ^ 2 / Real.pi ^ 2)

/-- `TeamEloCalculator.E_function` (with the exponent clipped to
`[-500, 500]` as in the source). -/
noncomputable def E_function (mu mu_j phi_j : ℝ) : ℝ :=
  1 / (1 + Real.exp (clip (-(g_function phi_j) * (mu - mu_j)) (-500) 500))

/-- `to_glicko_scale`: `mu`. -/
noncomputable def glicko_mu (r : Glicko2Rating) : ℝ := (r.rating - 1500) / 173.7178

/-- `to_glicko_scale`: `phi`. -/
noncomputable def glicko_phi (r : Glicko2Rating) : ℝ := r.rd / 173.7178

/-- The variance accumulator `v_sum` of `update_glicko2`. -/
noncomputable def glicko_v_sum (r : Glicko2Rating) (opponents : List Glicko2Rating) : ℝ :=
  (opponents.map fun opp =>
    g_function (glicko_phi opp) ^ 2 *
      E_function (glicko_mu r) (glicko_mu opp) (glicko_phi opp) *
      (1 - E_function (glicko_mu r) (glicko_mu opp) (glicko_phi opp))).sum

/-- `v = 1 / v_sum if v_sum > 0 else 1e10`. -/
noncomputable def glicko_v (r : Glicko2Rating) (opponents : List Glicko2Rating) : ℝ :=
  if 0 < glicko_v_sum r opponents then 1 / glicko_v_sum r opponents else 1e10

/-- The shared sum `Σ g(phi_j) * (outcome_j - E_j)` (the source computes
it twice, as `delta_sum` and again as `mu_update`; both are this value). -/
noncomputable def glicko_delta_sum (r : Glicko2Rating) (opponents : List Glicko2Rating)
    (outcomes : List ℝ) : ℝ :=
  ((opponents.zip outcomes).map fun p =>
    g_function (glicko_phi p.1) *
      (p.2 - E_function (glicko_mu r) (glicko_mu p.1) (glicko_phi p.1))).sum

/-- `delta = v * delta_sum`. -/
noncomputable def glicko_delta (r : Glicko2Rating) (opponents : List Glicko2Rating)
    (outcomes : List ℝ) : ℝ :=
  glicko_v r opponents * glicko_delta_sum r opponents outcomes

/-- `a = ln(sigma^2)`. -/
noncomputable def glicko_a (r : Glicko2Rating) : ℝ := Real.log (r.volatility ^ 2)

/-- The inner function `f(x)` of the volatility solve. -/
noncomputable def glicko_f (r : Glicko2Rating) (opponents : List Glicko2Rating)
    (outcomes : List ℝ) (x : ℝ) : ℝ :=
  Real.exp x *
      (glicko_delta r opponents outcomes ^ 2 - glicko_phi r ^ 2 - glicko_v r opponents -
        Real.exp x) /
      (2 * (glicko_phi r ^ 2 + glicko_v r opponents + Real.exp x) ^ 2) -
    (x - glicko_a r) / tau ^ 2

/-- The `while k < 100 and f(a - k*tau) < 0: k += 1` bracketing loop,
written with explicit fuel (100 units of fuel cover the cap `k < 100`). -/
noncomputable def bracket_k (f : ℝ → ℝ) (a t : ℝ) : ℕ → ℕ → ℕ
  | 0, k => k
  | fuel + 1, k => if k < 100 ∧ f (a - k * t) < 0 then bracket_k f a t fuel (k + 1) else k

/-- The Illinois/regula-falsi iteration of the volatility solve: state is
`(A, B, fA, fB)`, the loop runs while `|B - A| > 1e-6` with the source's
cap of 100 iterations carried as fuel, and the result is the final `A`. -/
noncomputable def illinois (f : ℝ → ℝ) : ℕ → ℝ → ℝ → ℝ → ℝ → ℝ
  | 0, A, _, _, _ => A
  | fuel + 1, A, B, fA, fB =>
    if 0.000001 < |B - A| then
      let C := A + (A - B) * fA / (fB - fA)
      let fC := f C
      if fC * fB < 0 then illinois f fuel B C fB fC
      else illinois f fuel A C (fA / 2) fC
    else A

/-- The initial bracket endpoint `B` of the volatility solve. -/
noncomputable def glicko_B (r : Glicko2Rating) (opponents : List Glicko2Rating)
    (outcomes : List ℝ) : ℝ :=
  if glicko_phi r ^ 2 + glicko_v r opponents < glicko_delta r opponents outcomes ^ 2 then
    Real.log (glicko_delta r opponents outcomes ^ 2 - glicko_phi r ^ 2 - glicko_v r opponents)
  else
    glicko_a r -
      (bracket_k (glicko_f r opponents outcomes) (glicko_a r) tau 100 1 : ℝ) * tau

/-- The final `A` of the volatility solve. -/
noncomputable def glicko_A (r : Glicko2Rating) (opponents : List Glicko2Rating)
    (outcomes : List ℝ) : ℝ :=
  illinois (glicko_f r opponents outcomes) 100 (glicko_a r) (glicko_B r opponents outcomes)
    (glicko_f r opponents outcomes (glicko_a r))
    (glicko_f r opponents outcomes (glicko_B r opponents outcomes))

/-- `new_sigma = clip(exp(A/2), 0.01, 0.5)`. -/
noncomputable def glicko_sigma (r : Glicko2Rating) (opponents : List Glicko2Rating)
    (outcomes : List ℝ) : ℝ :=
  clip (Real.exp (glicko_A r opponents outcomes / 2)) 0.01 0.5

/-- `new_phi = 1 / sqrt(1/phi_star^2 + 1/v)` with
`phi_star = sqrt(phi^2 + new_sigma^2)`. -/
noncomputable def glicko_new_phi (r : Glicko2Rating) (opponents : List Glicko2Rating)
    (outcomes : List ℝ) : ℝ :=
  1 / Real.sqrt
    (1 / Real.sqrt (glicko_phi r ^ 2 + glicko_sigma r opponents outcomes ^ 2) ^ 2 +
      1 / glicko_v r opponents)

/-- `new_mu = mu + new_phi^2 * mu_update`. -/
noncomputable def glicko_new_mu (r : Glicko2Rating) (opponents : List Glicko2Rating)
    (outcomes : List ℝ) : ℝ :=
  glicko_mu r + glicko_new_phi r opponents outcomes ^ 2 * glicko_delta_sum r opponents outcomes

/-- `TeamEloCalculator.update_glicko2`: the no-opponent branch only grows
the RD (capped at 350); otherwise the full rating-period update runs and
the converted-back rating and RD are clipped to `[800, 2200]` and
`[30, 350]`, the volatility having been clipped to `[0.01, 0.5]`. -/
noncomputable def update_glicko2 (r : Glicko2Rating) (opponents : List Glicko2Rating)
    (outcomes : List ℝ) : Glicko2Rating :=
  if opponents.isEmpty then
    { r with rd := min 350 (Real.sqrt (r.rd ^ 2 + r.volatility ^ 2)) }
  else
    { rating := clip (glicko_new_mu r opponents outcomes * 173.7178 + 1500) 800 2200,
      rd := clip (glicko_new_phi r opponents outcomes * 173.7178) 30 350,
      volatility := glicko_sigma r opponents outcomes }

/-- Replaying a sequence of rating periods (each a list of frozen opponent
ratings with the outcomes against them) from a starting state, as the main
loop does once per event for each lineage and session type. -/
noncomputable def replay_periods (start : Glicko2Rating)
    (periods : List (List Glicko2Rating × List ℝ)) : Glicko2Rating :=
  periods.foldl (fun r p => update_glicko2 r p.1 p.2) start

/-- The bounds claimed invariant for a lineage's per-session state. -/
def in_glicko_bounds (r : Glicko2Rating) : Prop :=
  800 ≤ r.rating ∧ r.rating ≤ 2200 ∧ 30 ≤ r.rd ∧ r.rd ≤ 350 ∧
    0.01 ≤ r.volatility ∧ r.volatility ≤ 0.5

/-! ### Event ingestion ordering (`calculate_all_elos` / `calculate_all_ratings`) -/

/-- The ordering key of one event: `(race_date, round_number)` in the
driver engine, `(year, round)` in the team engine. -/
structure RaceEvent where
  date : ℕ
  round : ℕ
deriving DecidableEq

/-- Boolean lexicographic comparison on `(date, round)`, the key of
`ORDER BY r.race_date, r.round_number` and of
`sort_values(['year', 'round'])`. -/
def event_le (e1 e2 : RaceEvent) : Bool :=
  decide (e1.date < e2.date) || (decide (e1.date = e2.date) && decide (e1.round ≤ e2.round))

/-- The lexicographic order as a relation. -/
def EventLE : RaceEvent → RaceEvent → Prop := fun e1 e2 => event_le e1 e2 = true

instance : DecidableRel EventLE := fun e1 e2 => by
  unfold EventLE
  infer_instance

instance : IsTotal RaceEvent EventLE := by
  refine ⟨fun a b => ?_⟩
  simp only [EventLE, event_le, Bool.or_eq_true, Bool.and_eq_true, decide_eq_true_eq]
  omega

instance : IsTrans RaceEvent EventLE := by
  refine ⟨fun a b c hab hbc => ?_⟩
  simp only [EventLE, event_le, Bool.or_eq_true, Bool.and_eq_true, decide_eq_true_eq] at *
  omega

/-- Ingestion of the event sequence: both engines sort the stored events
by the `(date, round)` key before replaying them — they never inspect the
incoming order. -/
def ingest_events (events : List RaceEvent) : List RaceEvent :=
  List.insertionSort EventLE events

/-- Boolean check that a sequence is already in non-decreasing
`(date, round)` order. -/
def chrono_ok : List RaceEvent → Bool
  | [] => true
  | [_] => true
  | a :: b :: rest => event_le a b && chrono_ok (b :: rest)

/-- Modelled from the spec (§7, claim C8): the engine is claimed to
validate monotonic `(date, round)` ordering on ingestion and fail fast —
reject the input — when the ordering is violated.  No such validation
exists anywhere in the source. -/
def spec_validate_events (events : List RaceEvent) : Option (List RaceEvent) :=
  if chrono_ok events then some events else none

/-! ### Helper lemmas about the Elo formulas -/

lemma expected_score_self (r : ℝ) : expected_score r r = 1 / 2 := by
  unfold expected_score
  rw [show (r - r) / 400 = (0 : ℝ) by ring, Real.rpow_zero]
  norm_num

lemma expected_score_add (a b : ℝ) : expected_score a b + expected_score b a = 1 := by
  unfold expected_score
  have hx : (0 : ℝ) < (10 : ℝ) ^ ((b - a) / 400) := Real.rpow_pos_of_pos (by norm_num) _
  have hy : (10 : ℝ) ^ ((a - b) / 400) = ((10 : ℝ) ^ ((b - a) / 400))⁻¹ := by
    rw [show (a - b) / 400 = -((b - a) / 400) by ring, Real.rpow_neg (by norm_num)]
  rw [hy]
  have h1 : (1 : ℝ) + (10 : ℝ) ^ ((b - a) / 400) ≠ 0 := by positivity
  have h2 : (1 : ℝ) + ((10 : ℝ) ^ ((b - a) / 400))⁻¹ ≠ 0 := by positivity
  field_simp
  ring

/-! ### Theorems for claims C4 and C7 -/

/-- C4: the K-factor is determined by checking, in order, the ever-elite
flag (K = 10), then races-processed below 30 (K = 40), otherwise K = 20;
and it does not depend on the driver's current rating. -/
theorem k_factor_schedule_and_rating_independent (elo elo2 : ℝ) (races : ℕ) (e : Bool) :
    get_k_factor elo races e = get_k_factor elo2 races e ∧
    get_k_factor elo races e = (if e then 10 else if races < 30 then 40 else 20) := by
  exact ⟨rfl, rfl⟩

/-- C7: the Elo expected scores of the two sides of any matchup sum to 1,
and a driver's expected score against an equally rated opponent is 1/2. -/
theorem expected_score_complement_and_half (a b : ℝ) :
    expected_score a b + expected_score b a = 1 ∧ expected_score a a = 1 / 2 :=
  ⟨expected_score_add a b, expected_score_self a⟩

/-- C3: an excluded matchup (either side mechanical in either session, or
both sides driver error in a race) returns `processed = false` and leaves
both drivers' ratings, races-processed counters and ever-elite flags
exactly as they were. -/
theorem excluded_matchup_is_noop (d1 d2 : DriverState) (p1 p2 : ℝ) (st1 st2 : Option String) :
    ((is_mechanical_dnf st1 || is_mechanical_dnf st2) = true →
      process_qualifying_matchup d1 d2 p1 p2 st1 st2 = (false, d1, d2)) ∧
    ((is_mechanical_dnf st1 || is_mechanical_dnf st2) = true ∨
        (is_driver_error_dnf st1 && is_driver_error_dnf st2) = true →
      process_race_matchup d1 d2 p1 p2 st1 st2 = (false, d1, d2)) := by
  constructor
  · intro h
    simp [process_qualifying_matchup, h]
  · intro h
    rcases h with h | h
    · simp [process_race_matchup, h]
    · cases hm : (is_mechanical_dnf st1 || is_mechanical_dnf st2) <;>
        simp [process_race_matchup, hm, h]

/-- Witness for C3 at a concrete mechanical-failure status. -/
theorem excluded_matchup_is_noop_witness :
    process_qualifying_matchup initialDriverState initialDriverState 1 2 (some r"Engine") none =
      (false, initialDriverState, initialDriverState) :=
  (excluded_matchup_is_noop initialDriverState initialDriverState 1 2
    (some r"Engine") none).1 (by decide)

/-- C1 counterexample: with both teammates on equal positions (both `1`),
both `Finished`, and both at the initial state, the claimed draw would
leave both qualifying ratings at 1500 (shift `K * (0.5 - 0.5) = 0`); the
code instead hands driver 2 a full win: driver 1 drops to 1480 and driver
2 rises to 1520. -/
theorem equal_position_scored_as_win_for_second :
    (process_qualifying_matchup initialDriverState initialDriverState 1 1
        (some r"Finished") (some r"Finished")).1 = true ∧
    (process_qualifying_matchup initialDriverState initialDriverState 1 1
        (some r"Finished") (some r"Finished")).2.1.qualifying_elo = 1480 ∧
    (process_qualifying_matchup initialDriverState initialDriverState 1 1
        (some r"Finished") (some r"Finished")).2.2.qualifying_elo = 1520 ∧
    (1480 : ℝ) ≠ 1500 := by
  have hm : is_mechanical_dnf (some r"Finished") = false := by decide
  have hE : expected_score 1500 1500 = 1 / 2 := expected_score_self 1500
  have hlt : ¬((1 : ℝ) < 1) := lt_irrefl 1
  refine ⟨?_, ?_, ?_, by norm_num⟩ <;>
    simp [process_qualifying_matchup, hm, hlt, quali_apply, initialDriverState,
      update_rating, get_k_factor, hE] <;> norm_num

/-- C1 amended: in both sessions, when neither side is excluded and the
numeric positions are equal, the matchup is scored as a win for the second
driver of the pair: driver 2 updates with actualScore 1 and driver 1 with
actualScore 0 (there is no draw path). -/
theorem equal_position_awards_win_to_second (d1 d2 : DriverState) (p : ℝ)
    (st1 st2 : Option String)
    (hm1 : is_mechanical_dnf st1 = false) (hm2 : is_mechanical_dnf st2 = false)
    (he1 : is_driver_error_dnf st1 = false) (he2 : is_driver_error_dnf st2 = false) :
    process_qualifying_matchup d1 d2 p p st1 st2 =
      (true, (quali_apply d2 d1).2, (quali_apply d2 d1).1) ∧
    (quali_apply d2 d1).1.qualifying_elo =
      d2.qualifying_elo +
        get_k_factor d2.qualifying_elo d2.qualifying_races d2.ever_elite_qualifying *
          (1 - expected_score d2.qualifying_elo d1.qualifying_elo) ∧
    (quali_apply d2 d1).2.qualifying_elo =
      d1.qualifying_elo +
        get_k_factor d1.qualifying_elo d1.qualifying_races d1.ever_elite_qualifying *
          (0 - (1 - expected_score d2.qualifying_elo d1.qualifying_elo)) ∧
    process_race_matchup d1 d2 p p st1 st2 =
      (true, (race_apply d2 d1).2, (race_apply d2 d1).1) ∧
    (race_apply d2 d1).1.race_elo =
      d2.race_elo +
        get_k_factor d2.race_elo d2.race_races d2.ever_elite_race *
          (1 - expected_score d2.race_elo d1.race_elo) ∧
    (race_apply d2 d1).2.race_elo =
      d1.race_elo +
        get_k_factor d1.race_elo d1.race_races d1.ever_elite_race *
          (0 - (1 - expected_score d2.race_elo d1.race_elo)) := by
  have hlt : ¬(p < p) := lt_irrefl p
  refine ⟨?_, ?_, ?_, ?_, ?_, ?_⟩
  · simp [process_qualifying_matchup, hm1, hm2, hlt]
  · simp [quali_apply, update_rating]
  · simp [quali_apply, update_rating]
  · simp [process_race_matchup, hm1, hm2, he1, he2, hlt]
  · simp [race_apply, update_rating]
  · simp [race_apply, update_rating]

/-- Witness for the amended C1 at concrete finished statuses. -/
theorem equal_position_awards_win_to_second_witness :
    process_qualifying_matchup initialDriverState initialDriverState 2 2
        (some r"Finished") none =
      (true, (quali_apply initialDriverState initialDriverState).2,
        (quali_apply initialDriverState initialDriverState).1) :=
  (equal_position_awards_win_to_second initialDriverState initialDriverState 2
    (some r"Finished") none (by decide) (by decide) (by decide) (by decide)).1

/-- Helper: sum of a list after adding a constant to each mapped value. -/
lemma sum_map_add_const (l : List DriverState) (f : DriverState → ℝ) (c : ℝ) :
    (l.map fun d => f d + c).sum = (l.map f).sum + l.length * c := by
  induction l with
  | nil => simp
  | cons d t ih =>
    simp only [List.map_cons, List.sum_cons, ih, List.length_cons]
    push_cast
    ring

/-- Helper: the non-empty branch of `normalize_ratings`, written out. -/
lemma normalize_ratings_of_ne_nil (l : List DriverState) (h : l ≠ []) :
    normalize_ratings l =
      l.map fun d =>
        { d with
            qualifying_elo := d.qualifying_elo - mean_qualifying l + 1500,
            race_elo := d.race_elo - mean_race l + 1500 } := by
  have hne : l.isEmpty = false := by
    cases l with
    | nil => exact absurd rfl h
    | cons a t => rfl
  simp [normalize_ratings, hne]

/-- C6: season normalization shifts every tracked driver's rating by
`1500 - mean` per session type, the post-normalization pool means are
exactly 1500, and a pool whose means are already 1500 is left unchanged. -/
theorem season_normalization_recenters (l : List DriverState) (h : l ≠ []) :
    (normalize_ratings l).map (fun d => d.qualifying_elo) =
      l.map (fun d => d.qualifying_elo + (1500 - mean_qualifying l)) ∧
    (normalize_ratings l).map (fun d => d.race_elo) =
      l.map (fun d => d.race_elo + (1500 - mean_race l)) ∧
    mean_qualifying (normalize_ratings l) = 1500 ∧
    mean_race (normalize_ratings l) = 1500 ∧
    (mean_qualifying l = 1500 → mean_race l = 1500 → normalize_ratings l = l) := by
  have hl0 : l.length ≠ 0 := fun h0 => h (List.length_eq_zero.mp h0)
  have hn : (l.length : ℝ) ≠ 0 := by exact_mod_cast hl0
  have hq : (normalize_ratings l).map (fun d => d.qualifying_elo) =
      l.map (fun d => d.qualifying_elo + (1500 - mean_qualifying l)) := by
    rw [normalize_ratings_of_ne_nil l h, List.map_map]
    refine List.map_congr_left fun d _ => ?_
    show d.qualifying_elo - mean_qualifying l + 1500 = _
    ring
  have hr : (normalize_ratings l).map (fun d => d.race_elo) =
      l.map (fun d => d.race_elo + (1500 - mean_race l)) := by
    rw [normalize_ratings_of_ne_nil l h, List.map_map]
    refine List.map_congr_left fun d _ => ?_
    show d.race_elo - mean_race l + 1500 = _
    ring
  have hlen : (normalize_ratings l).length = l.length := by
    rw [normalize_ratings_of_ne_nil l h, List.length_map]
  refine ⟨hq, hr, ?_, ?_, ?_⟩
  · rw [mean_qualifying, hq, hlen, sum_map_add_const, mean_qualifying]
    field_simp
  · rw [mean_race, hr, hlen, sum_map_add_const, mean_race]
    field_simp
  · intro hmq hmr
    rw [normalize_ratings_of_ne_nil l h, hmq, hmr]
    have heach : ∀ d ∈ l,
        ({ d with
            qualifying_elo := d.qualifying_elo - 1500 + 1500,
            race_elo := d.race_elo - 1500 + 1500 } : DriverState) = id d := by
      intro d _
      cases d
      simp
    exact (List.map_congr_left heach).trans (List.map_id l)

/-- Witness for C6 on a one-driver pool with qualifying Elo 1600. -/
theorem season_normalization_recenters_witness :
    mean_qualifying (normalize_ratings
      [{ qualifying_elo := 1600, race_elo := 1400, qualifying_races := 3, race_races := 4,
         ever_elite_qualifying := false, ever_elite_race := true }]) = 1500 :=
  (season_normalization_recenters
    [{ qualifying_elo := 1600, race_elo := 1400, qualifying_races := 3, race_races := 4,
       ever_elite_qualifying := false, ever_elite_race := true }] (by simp)).2.2.1

/-- C9: `normalize_ratings` mutates only the two rating fields — every
driver's races-processed counters and ever-elite flags are unchanged. -/
theorem normalize_preserves_counters_and_flags (l : List DriverState) :
    (normalize_ratings l).map
        (fun d =>
          (d.qualifying_races, d.race_races, d.ever_elite_qualifying, d.ever_elite_race)) =
      l.map
        (fun d =>
          (d.qualifying_races, d.race_races, d.ever_elite_qualifying, d.ever_elite_race)) := by
  cases hl : l with
  | nil => rfl
  | cons a t =>
    rw [← hl, normalize_ratings_of_ne_nil l (by rw [hl]; exact List.cons_ne_nil a t),
      List.map_map]
    exact List.map_congr_left fun d _ => rfl

/-- Helper: a successful association-list lookup returns one of the stored
values. -/
lemma lookup_mem_values {l : List (String × String)} {k v : String}
    (h : l.lookup k = some v) : v ∈ l.map Prod.snd := by
  induction l with
  | nil => simp [List.lookup] at h
  | cons p t ih =>
    cases p with
    | mk a b =>
      rw [List.lookup] at h
      by_cases hk : k == a
      · simp only [hk, if_pos] at h
        injection h with h
        exact List.mem_map.mpr ⟨(a, b), List.mem_cons_self _ _, h⟩
      · simp only [hk] at h
        simp [ih h]

/-- Helper: no lineage value produced by the map is itself a key of the
map (after normalization), checked by evaluation. -/
lemma lineage_values_not_keys :
    ∀ v ∈ LINEAGE_MAP.map Prod.snd, LINEAGE_MAP.lookup (normalize_ref v) = none := by
  decide

/-- C10: lineage resolution is idempotent — resolving a resolved
identifier returns it unchanged, for every input string. -/
theorem get_lineage_idempotent (s : String) :
    get_lineage (get_lineage s) = get_lineage s := by
  cases h : LINEAGE_MAP.lookup (normalize_ref s) with
  | none => simp [get_lineage, h]
  | some v =>
    have hv : v ∈ LINEAGE_MAP.map Prod.snd := lookup_mem_values h
    have hnone : LINEAGE_MAP.lookup (normalize_ref v) = none :=
      lineage_values_not_keys v hv
    simp [get_lineage, h, hnone]

/-- Helper: a defined constructor performance always has a positive
sample count. -/
lemma gdap_some_pos (rs : List TeamDriverResult) (x : ℝ)
    (h : (get_driver_adjusted_performance rs).1 = some x) :
    0 < (get_driver_adjusted_performance rs).2 := by
  unfold get_driver_adjusted_performance at h ⊢
  by_cases h1 : rs.isEmpty
  · simp [h1] at h
  · by_cases h2 : (adjusted_performances rs).isEmpty
    · simp [h1, h2] at h
    · simp only [h1, h2, Bool.false_eq_true, if_false]
      have : adjusted_performances rs ≠ [] := by
        intro hnil
        rw [hnil] at h2
        exact h2 rfl
      exact List.length_pos.mpr this

/-- Helper: `lineage_step` is the option-valued maximum accumulator. -/
lemma lineage_step_eq (acc : Option ℝ) (rs : List TeamDriverResult) :
    lineage_step acc rs =
      match (get_driver_adjusted_performance rs).1 with
      | some perf =>
        match acc with
        | none => some perf
        | some q => some (max q perf)
      | none => acc := by
  unfold lineage_step
  cases h : (get_driver_adjusted_performance rs).1 with
  | none => rfl
  | some x =>
    have hpos := gdap_some_pos rs x h
    show (if 0 < (get_driver_adjusted_performance rs).2 then
        match acc with
        | none => some x
        | some q => if q < x then some x else some q
      else acc) =
      match acc with
      | none => some x
      | some q => some (max q x)
    rw [if_pos hpos]
    cases acc with
    | none => rfl
    | some q =>
      show (if q < x then some x else some q) = some (max q x)
      rcases lt_or_ge q x with hlt | hge
      · rw [if_pos hlt, max_eq_right hlt.le]
      · rw [if_neg (not_lt.mpr hge), max_eq_left hge]

/-- Helper: folding `lineage_step` from a defined accumulator computes the
running maximum of the defined constructor averages. -/
lemma lineage_fold_some (cs : List (List TeamDriverResult)) (q : ℝ) :
    cs.foldl lineage_step (some q) =
      some ((cs.filterMap fun rs => (get_driver_adjusted_performance rs).1).foldl max q) := by
  induction cs generalizing q with
  | nil => rfl
  | cons rs t ih =>
    rw [List.foldl_cons, lineage_step_eq, List.filterMap_cons]
    cases h : (get_driver_adjusted_performance rs).1 with
    | none => exact ih q
    | some x =>
      simp only [List.foldl_cons]
      exact ih (max q x)

/-- C2 amended: a lineage's performance entering matchup generation is the
maximum over its constituent **constructors** of each constructor's
**average** driver-skill-adjusted performance (not the maximum over
individual drivers); drivers without an external skill rating are skipped,
not zero-filled. -/
theorem lineage_performance_max_of_constructor_averages
    (cs : List (List TeamDriverResult)) :
    lineage_performance cs =
      (cs.filterMap fun rs => (get_driver_adjusted_performance rs).1).max? ∧
    ∀ (e : ℝ) (p : Option ℝ) (rs : List TeamDriverResult),
      adjusted_performances ({ has_elo := false, elo := e, position := p } :: rs) =
        adjusted_performances rs := by
  constructor
  · induction cs with
    | nil => rfl
    | cons rs t ih =>
      unfold lineage_performance at ih ⊢
      rw [List.foldl_cons, lineage_step_eq, List.filterMap_cons]
      cases h : (get_driver_adjusted_performance rs).1 with
      | none => exact ih
      | some x =>
        rw [lineage_fold_some]
        rfl
  · intro e p rs
    simp [adjusted_performances]

/-- C2 counterexample: a single constructor with two drivers, both rated
1500, positions 1 and 11.  The drivers' adjusted values are 100 and 50.
The claimed value (maximum over drivers) is 100; the code computes their
average, 75. -/
theorem lineage_performance_average_counterexample :
    lineage_performance
        [[{ has_elo := true, elo := 1500, position := some 1 },
          { has_elo := true, elo := 1500, position := some 11 }]] = some 75 ∧
    spec_lineage_driver_max
        [[{ has_elo := true, elo := 1500, position := some 1 },
          { has_elo := true, elo := 1500, position := some 11 }]] = some 100 ∧
    (75 : ℝ) ≠ 100 := by
  have hadj : adjusted_performances
      [{ has_elo := true, elo := 1500, position := some 1 },
       { has_elo := true, elo := 1500, position := some 11 }] = [100, 50] := by
    have e1 : max (0 : ℝ) (100 - ((1 : ℝ) - 1) * 5) - ((1500 : ℝ) - 1500) / 10 = 100 := by
      rw [show (100 - ((1 : ℝ) - 1) * 5) = 100 by ring,
        max_eq_right (by norm_num : (0 : ℝ) ≤ 100)]
      norm_num
    have e2 : max (0 : ℝ) (100 - ((11 : ℝ) - 1) * 5) - ((1500 : ℝ) - 1500) / 10 = 50 := by
      rw [show (100 - ((11 : ℝ) - 1) * 5) = 50 by ring,
        max_eq_right (by norm_num : (0 : ℝ) ≤ 50)]
      norm_num
    simp only [adjusted_performances, List.filterMap_cons, List.filterMap_nil, if_pos,
      if_true]
    norm_num [e1, e2]
  have hgdap : get_driver_adjusted_performance
      [{ has_elo := true, elo := 1500, position := some 1 },
       { has_elo := true, elo := 1500, position := some 11 }] = (some 75, 2) := by
    unfold get_driver_adjusted_performance
    rw [hadj]
    norm_num
  refine ⟨?_, ?_, by norm_num⟩
  · unfold lineage_performance
    rw [List.foldl_cons, List.foldl_nil, lineage_step_eq, hgdap]
  · unfold spec_lineage_driver_max
    rw [List.map_cons, List.map_nil, hadj]
    rw [show ([[100, 50]] : List (List ℝ)).flatten = [100, 50] by simp]
    show some (max (100 : ℝ) 50) = some 100
    rw [max_eq_left (by norm_num : (50 : ℝ) ≤ 100)]

/-- Helper: `clip` lands in the clipping interval. -/
lemma clip_mem (x lo hi : ℝ) (h : lo ≤ hi) : lo ≤ clip x lo hi ∧ clip x lo hi ≤ hi :=
  ⟨le_min h (le_max_left lo x), min_le_left hi _⟩

/-- Helper: one Glicko-2 rating-period update preserves the bounds. -/
lemma update_glicko2_preserves_bounds (r : Glicko2Rating) (h : in_glicko_bounds r)
    (opponents : List Glicko2Rating) (outcomes : List ℝ) :
    in_glicko_bounds (update_glicko2 r opponents outcomes) := by
  obtain ⟨h1, h2, h3, h4, h5, h6⟩ := h
  unfold update_glicko2
  by_cases he : opponents.isEmpty
  · rw [if_pos he]
    have hrd0 : (0 : ℝ) ≤ r.rd := le_trans (by norm_num) h3
    have hsq : r.rd ≤ Real.sqrt (r.rd ^ 2 + r.volatility ^ 2) := by
      calc r.rd = Real.sqrt (r.rd ^ 2) := (Real.sqrt_sq hrd0).symm
        _ ≤ Real.sqrt (r.rd ^ 2 + r.volatility ^ 2) :=
          Real.sqrt_le_sqrt (le_add_of_nonneg_right (sq_nonneg _))
    exact ⟨h1, h2, le_min (by norm_num) (le_trans h3 hsq), min_le_left _ _, h5, h6⟩
  · rw [if_neg he]
    have c1 := clip_mem (glicko_new_mu r opponents outcomes * 173.7178 + 1500) 800 2200
      (by norm_num)
    have c2 := clip_mem (glicko_new_phi r opponents outcomes * 173.7178) 30 350 (by norm_num)
    have c3 := clip_mem (Real.exp (glicko_A r opponents outcomes / 2)) 0.01 0.5 (by norm_num)
    exact ⟨c1.1, c1.2, c2.1, c2.2, c3.1, c3.2⟩

/-- C5: starting from the initial Glicko-2 state (1500, 350, 0.06), after
any sequence of rating periods — with or without opponents — the rating
stays in [800, 2200], the RD in [30, 350] and the volatility in
[0.01, 0.5]. -/
theorem glicko2_replay_in_bounds (periods : List (List Glicko2Rating × List ℝ)) :
    in_glicko_bounds (replay_periods initialGlicko2 periods) := by
  have h0 : in_glicko_bounds initialGlicko2 := by
    refine ⟨?_, ?_, ?_, ?_, ?_, ?_⟩ <;> norm_num [initialGlicko2]
  suffices h : ∀ (ps : List (List Glicko2Rating × List ℝ)) (r : Glicko2Rating),
      in_glicko_bounds r → in_glicko_bounds (replay_periods r ps) from h periods _ h0
  intro ps
  induction ps with
  | nil => exact fun r hr => hr
  | cons p t ih =>
    exact fun r hr => ih _ (update_glicko2_preserves_bounds r hr p.1 p.2)

/-- C8 counterexample: on the mis-ordered input `[(2,1), (1,1)]` the
engine silently reorders and proceeds (ingestion returns the sorted
sequence), whereas the claimed fail-fast validation would reject it. -/
theorem out_of_order_events_not_rejected :
    ingest_events [{ date := 2, round := 1 }, { date := 1, round := 1 }] =
      [{ date := 1, round := 1 }, { date := 2, round := 1 }] ∧
    spec_validate_events [{ date := 2, round := 1 }, { date := 1, round := 1 }] = none := by
  constructor
  · decide
  · decide

/-- C8 amended: the engine performs no ordering validation and never
rejects an input sequence; instead ingestion sorts the events by the
`(date, round)` key, so the processed sequence is always a chronologically
sorted permutation of the input. -/
theorem ingestion_sorts_and_never_rejects (events : List RaceEvent) :
    List.Sorted EventLE (ingest_events events) ∧
    List.Perm (ingest_events events) events :=
  ⟨List.sorted_insertionSort EventLE events, List.perm_insertionSort EventLE events⟩

end F1
